import Mathlib

/-!
# Verification of `scripts/check_import_mappings.py`

A shallow embedding of the re-export discovery engine: the entry-point
locator (`find_init_files`), the AST visitor extracting
`langchain_core` import bindings and `__all__` exports, the per-module
analysis (`analyze_init_file`), and the report/summary assembly of
`main`. External effects of the host (PyPI queries, `pip install`, the
filesystem walk, `ast.parse`) enter as data in an `Env`.
-/

namespace CheckImportMappings

/-- Python `str.startswith`: a prefix test on the character sequence.
(`String.startsWith` computes the same Bool but by a byte-level loop the
kernel does not unfold, so the character-list form is used.) -/
def pyStartswith (s pre : String) : Bool :=
  pre.data.isPrefixOf s.data

/-- A Python literal constant as carried by an `ast.Constant` node
(`__all__` elements are normally strings, but `ast.Constant` also covers
numbers, booleans and `None`). -/
inductive ConstVal where
  | str (s : String)
  | int (n : Int)
  | bool (b : Bool)
  | none
deriving DecidableEq, Repr

/-- An expression that can occur as an element of a list literal. Only
`ast.Constant` elements matter to the script; names, calls and anything
else are lumped into their own constructors. -/
inductive Expr where
  | const (v : ConstVal)
  | name (id : String)
  | call
  | other
deriving DecidableEq, Repr

/-- One `name` or `name as asname` clause of an import statement
(Python `ast.alias`): `asname` is `none` when no alias is given. -/
structure ImportAlias where
  name : String
  asname : Option String
deriving DecidableEq, Repr

/-- An assignment target; the script only looks at `ast.Name` targets. -/
inductive Target where
  | name (id : String)
  | other
deriving DecidableEq, Repr

/-- The right-hand side of an assignment; the script only looks at
`ast.List` literals. -/
inductive AValue where
  | list (elts : List Expr)
  | other
deriving DecidableEq, Repr

/-- A module-level statement as seen by the `ast.NodeVisitor`:
`from <module> import <names>` (where `module = none` models a relative
form such as `from . import x`), an assignment, or any other statement. -/
inductive Stmt where
  | importFrom (module : Option String) (names : List ImportAlias)
  | assign (targets : List Target) (value : AValue)
  | other
deriving DecidableEq, Repr

/-- A parsed module: its statements in source order. -/
abbrev Module := List Stmt

/-- The value stored in `langchain_core_imports` for one local name:
`{"module": node.module, "original_name": alias.name}`. -/
structure ImportInfo where
  module : String
  original_name : String
deriving DecidableEq, Repr

/-- A Python `dict` with string keys, as an association list in insertion
order: assigning to an existing key updates it in place, a new key is
appended. -/
def dictInsert (d : List (String × ImportInfo)) (k : String) (v : ImportInfo) :
    List (String × ImportInfo) :=
  if d.any (fun p => p.1 == k) then
    d.map (fun p => if p.1 == k then (k, v) else p)
  else
    d ++ [(k, v)]

/-- Key lookup in the dict (`d[k]` / `k in d`). -/
def dictLookup (d : List (String × ImportInfo)) (k : String) : Option ImportInfo :=
  (d.find? (fun p => p.1 == k)).map Prod.snd

/-- One iteration of the loop over `node.names`: the local name is
`alias.asname if alias.asname else alias.name` (a Python string is
truthy iff non-empty), and the stored value pairs the origin module with
the original (pre-alias) name. -/
def importStep (m : String) (d : List (String × ImportInfo)) (a : ImportAlias) :
    List (String × ImportInfo) :=
  let name :=
    match a.asname with
    | some s => if s != "" then s else a.name
    | Option.none => a.name
  dictInsert d name { module := m, original_name := a.name }

/-- `ImportVisitor.visit_ImportFrom`: when
`node.module and node.module.startswith("langchain_core")`, each alias is
stored under its local name. -/
def processImportFrom (imports : List (String × ImportInfo)) (module : Option String)
    (names : List ImportAlias) : List (String × ImportInfo) :=
  match module with
  | Option.none => imports
  | some m =>
    if m != "" && pyStartswith m "langchain_core" then
      names.foldl (importStep m) imports
    else
      imports

/-- The `ast.Constant` elements of a list literal, in order; names,
calls and other expressions are skipped. -/
def constElts (elts : List Expr) : List ConstVal :=
  elts.filterMap (fun e =>
    match e with
    | Expr.const v => some v
    | _ => Option.none)

/-- One iteration of the loop over `node.targets`: an `ast.Name` target
spelled `__all__` whose assigned value is an `ast.List` extends the
accumulated exports with the constant elements of the list. -/
def assignStep (value : AValue) (acc : List ConstVal) (target : Target) : List ConstVal :=
  match target, value with
  | Target.name id, AValue.list elts =>
    if id == "__all__" then acc ++ constElts elts else acc
  | _, _ => acc

/-- `ImportVisitor.visit_Assign`: fold `assignStep` over the targets. -/
def processAssign (all_exports : List ConstVal) (targets : List Target) (value : AValue) :
    List ConstVal :=
  targets.foldl (assignStep value) all_exports

/-- The export-list contribution of a single statement: what
`visit_Assign` would append for it, and `[]` for any other statement. -/
def stmtExportElts : Stmt → List ConstVal
  | Stmt.assign targets value => processAssign [] targets value
  | _ => []

/-- Whether a constant is a string literal (used to state that the
extractor does not restrict `__all__` elements to strings). -/
def isStrConst : ConstVal → Bool
  | ConstVal.str _ => true
  | _ => false

/-- The mutable state the visitor closes over: the
`langchain_core_imports` dict and the `all_exports` list. -/
structure VisitState where
  langchain_core_imports : List (String × ImportInfo)
  all_exports : List ConstVal
deriving DecidableEq, Repr

/-- Dispatch of the visitor on one statement. -/
def visitStmt (st : VisitState) : Stmt → VisitState
  | Stmt.importFrom module names =>
    { st with langchain_core_imports := processImportFrom st.langchain_core_imports module names }
  | Stmt.assign targets value =>
    { st with all_exports := processAssign st.all_exports targets value }
  | Stmt.other => st

/-- `visitor.visit(tree)`: fold the visitor over the statements in
source order, starting from the empty dict and empty list. -/
def visitModule (tree : Module) : VisitState :=
  tree.foldl visitStmt { langchain_core_imports := [], all_exports := [] }

/-- One step of the `exported_from_core` loop: `if export in
langchain_core_imports: exported_from_core[export] =
langchain_core_imports[export]`. The dict's keys are identifier strings,
so a non-string constant in `all_exports` never matches a key. -/
def exportStep (imports : List (String × ImportInfo)) (d : List (String × ImportInfo)) :
    ConstVal → List (String × ImportInfo)
  | ConstVal.str s =>
    match dictLookup imports s with
    | some info => dictInsert d s info
    | Option.none => d
  | _ => d

/-- The `exported_from_core` dict: the exports that are also keys of
`langchain_core_imports`, with the stored import info. -/
def computeExportedFromCore (imports : List (String × ImportInfo))
    (all_exports : List ConstVal) : List (String × ImportInfo) :=
  all_exports.foldl (exportStep imports) []

/-- The result dict of `analyze_init_file` for one module. -/
structure Analysis where
  file : String
  error : Option String
  langchain_core_imports : List (String × ImportInfo)
  all_exports : List ConstVal
  exported_from_core : List (String × ImportInfo)
deriving DecidableEq, Repr

/-- The outcome of `ast.parse` on a module's source text: a tree, or the
message of the caught `OSError`/`SyntaxError`/`ValueError`. -/
abbrev ParseResult := Except String Module

/-- `analyze_init_file`: on a parse (or read) failure the analysis
carries the error string and empty sets; otherwise the visitor runs and
the re-export intersection is computed. -/
def analyze_init_file (file : String) (parsed : ParseResult) : Analysis :=
  match parsed with
  | Except.error e =>
    { file := file, error := some e, langchain_core_imports := [], all_exports := [],
      exported_from_core := [] }
  | Except.ok tree =>
    let st := visitModule tree
    { file := file, error := Option.none,
      langchain_core_imports := st.langchain_core_imports,
      all_exports := st.all_exports,
      exported_from_core := computeExportedFromCore st.langchain_core_imports st.all_exports }

/-- The relative path of a candidate `__init__.py` below the `langchain`
directory: its path segments, the last one being the filename. -/
abbrev RelPath := List String

/-- The `langchain` directory as `find_init_files` observes it: whether
it exists, and the candidate `__init__.py` paths `rglob` yields. -/
structure LangchainDir where
  present : Bool
  initFiles : List RelPath
deriving Repr

/-- `find_init_files`: empty when the directory is missing; otherwise
drop every candidate for which some path segment before the filename
(`parts[:-1]`) starts with `_` and is not the literal `__init__.py`. -/
def find_init_files (d : LangchainDir) : List RelPath :=
  if !d.present then
    []
  else
    d.initFiles.filter (fun p =>
      !(p.dropLast.any (fun part => pyStartswith part "_" && part != "__init__.py")))

/-- The `summary` dict of the report. -/
structure Summary where
  total_langchain_core_reexports : Nat
  modules_with_core_reexports : Nat
deriving DecidableEq, Repr

/-- One iteration of the summary loop of `main`: an analysis with a
truthy (non-empty) `exported_from_core` contributes its size to the
total and one module to the module count. -/
def summaryStep (s : Summary) (a : Analysis) : Summary :=
  if a.exported_from_core ≠ [] then
    { total_langchain_core_reexports :=
        s.total_langchain_core_reexports + a.exported_from_core.length,
      modules_with_core_reexports := s.modules_with_core_reexports + 1 }
  else s

/-- The summary loop of `main` over all analyses. -/
def computeSummary (analyses : List Analysis) : Summary :=
  analyses.foldl summaryStep
    { total_langchain_core_reexports := 0, modules_with_core_reexports := 0 }

/-- The report's `metadata` dict. -/
structure Metadata where
  langchain_version : String
  langchain_core_version : String
  total_init_files : Nat
deriving DecidableEq, Repr

/-- The `results` structure `main` builds and serializes. -/
structure Report where
  metadata : Metadata
  analysis : List Analysis
  summary : Summary
deriving DecidableEq, Repr

/-- One run's external inputs: the version strings PyPI answered,
whether `pip install` succeeded, the filesystem under the temp dir, and
per discovered file its display name (`str(init_file)`) and the parse
outcome of its content. -/
structure Env where
  langchain_version : String
  langchain_core_version : String
  installOk : Bool
  dir : LangchainDir
  pathName : RelPath → String
  parse : RelPath → ParseResult

/-- The report-building part of `main`: locate the init files, analyze
each in order, compute the summary. -/
def buildReport (env : Env) : Report :=
  let init_files := find_init_files env.dir
  let analyses := init_files.map (fun p => analyze_init_file (env.pathName p) (env.parse p))
  { metadata :=
      { langchain_version := env.langchain_version,
        langchain_core_version := env.langchain_core_version,
        total_init_files := init_files.length },
    analysis := analyses,
    summary := computeSummary analyses }

/-- `main`: a failed `pip install` raises, aborting the run with a
non-zero status; otherwise the report is produced and written and the
process exits with status 0. -/
def main (env : Env) : Except String Report :=
  if env.installOk then Except.ok (buildReport env)
  else Except.error "Failed to install packages"

/-- Example module from the spec's end-to-end scenario:
`from langchain_core.chains import LLMChain as Chain` followed by
`__all__ = ["Chain", "Other"]`. -/
def exampleAliasModule : Module :=
  [Stmt.importFrom (some "langchain_core.chains")
    [{ name := "LLMChain", asname := some "Chain" }],
   Stmt.assign [Target.name "__all__"]
     (AValue.list [Expr.const (ConstVal.str "Chain"), Expr.const (ConstVal.str "Other")])]

/-- Example run environment in which the `langchain` directory is
missing. -/
def exampleMissingDirEnv : Env :=
  { langchain_version := "1.0.0", langchain_core_version := "1.0.0", installOk := true,
    dir := { present := false, initFiles := [] },
    pathName := fun _ => "", parse := fun _ => Except.ok [] }

/-! ## Helper lemmas -/

theorem find?_map_update (d : List (String × ImportInfo)) (k : String) (v : ImportInfo)
    (h : d.any (fun p => p.1 == k) = true) :
    (d.map (fun p => if p.1 == k then (k, v) else p)).find? (fun p => p.1 == k)
      = some (k, v) := by
  induction d with
  | nil => simp at h
  | cons p ds ih =>
    cases hp : (p.1 == k) with
    | true =>
      rw [List.map_cons, if_pos hp, List.find?_cons_of_pos _ (by simp)]
    | false =>
      rw [List.any_cons, hp, Bool.false_or] at h
      rw [List.map_cons, if_neg (by simp [hp]), List.find?_cons_of_neg _ (by simp [hp])]
      exact ih h

theorem find?_append_self (d : List (String × ImportInfo)) (k : String) (v : ImportInfo)
    (h : d.any (fun p => p.1 == k) = false) :
    (d ++ [(k, v)]).find? (fun p => p.1 == k) = some (k, v) := by
  induction d with
  | nil => rw [List.nil_append, List.find?_cons_of_pos _ (by simp)]
  | cons p ds ih =>
    cases hp : (p.1 == k) with
    | true => rw [List.any_cons, hp] at h; simp at h
    | false =>
      rw [List.any_cons, hp, Bool.false_or] at h
      rw [List.cons_append, List.find?_cons_of_neg _ (by simp [hp])]
      exact ih h

/-- Looking up the key just written into the dict returns the value just
written (Python `d[k] = v` semantics). -/
theorem dictLookup_dictInsert_self (d : List (String × ImportInfo)) (k : String)
    (v : ImportInfo) : dictLookup (dictInsert d k v) k = some v := by
  cases hany : d.any (fun p => p.1 == k) with
  | true =>
    have hd : dictInsert d k v = d.map (fun p => if p.1 == k then (k, v) else p) := by
      unfold dictInsert
      rw [if_pos hany]
    rw [hd]
    unfold dictLookup
    rw [find?_map_update d k v hany]
    rfl
  | false =>
    have hd : dictInsert d k v = d ++ [(k, v)] := by
      unfold dictInsert
      rw [if_neg (by simp [hany])]
    rw [hd]
    unfold dictLookup
    rw [find?_append_self d k v hany]
    rfl

/-- Every entry of the dict after an insertion is an old entry or the
inserted pair. -/
theorem mem_dictInsert (d : List (String × ImportInfo)) (k : String) (v : ImportInfo)
    (x : String × ImportInfo) (h : x ∈ dictInsert d k v) : x ∈ d ∨ x = (k, v) := by
  unfold dictInsert at h
  by_cases hc : d.any (fun p => p.1 == k) = true
  · rw [if_pos hc] at h
    rcases List.mem_map.mp h with ⟨p, hp, he⟩
    by_cases hpk : (p.1 == k) = true
    · right
      rw [if_pos hpk] at he
      exact he.symm
    · left
      rw [if_neg hpk] at he
      exact he ▸ hp
  · rw [if_neg hc] at h
    rcases List.mem_append.mp h with h1 | h1
    · exact Or.inl h1
    · right
      simpa using h1

/-- Invariant of the `exported_from_core` loop: every entry of the
accumulator either was already there or is an export name whose lookup in
the import dict yields exactly the stored info. -/
theorem mem_exportedFromCore_foldl (imports : List (String × ImportInfo))
    (exports : List ConstVal) (acc : List (String × ImportInfo)) (k : String)
    (info : ImportInfo) (h : (k, info) ∈ exports.foldl (exportStep imports) acc) :
    (k, info) ∈ acc
      ∨ (dictLookup imports k = some info ∧ ConstVal.str k ∈ exports) := by
  induction exports generalizing acc with
  | nil => exact Or.inl h
  | cons e es ih =>
    rw [List.foldl_cons] at h
    rcases ih (exportStep imports acc e) h with hmem | hgood
    · cases e with
      | str s =>
        cases hlk : dictLookup imports s with
        | none =>
          have hmem' : (k, info) ∈ acc := by
            simpa only [exportStep, hlk] using hmem
          exact Or.inl hmem'
        | some i =>
          have hmem' : (k, info) ∈ dictInsert acc s i := by
            simpa only [exportStep, hlk] using hmem
          rcases mem_dictInsert _ _ _ _ hmem' with h1 | h1
          · exact Or.inl h1
          · injection h1 with hk hi
            subst hk
            subst hi
            exact Or.inr ⟨hlk, List.mem_cons_self _ _⟩
      | int n => exact Or.inl hmem
      | bool b => exact Or.inl hmem
      | none => exact Or.inl hmem
    · exact Or.inr ⟨hgood.1, List.mem_cons_of_mem _ hgood.2⟩

/-- The visitor fold splits at a statement appended at the end. -/
theorem visitModule_append (l : Module) (s : Stmt) :
    visitModule (l ++ [s]) = visitStmt (visitModule l) s := by
  simp [visitModule, List.foldl_append]

theorem assignStep_eq_append (value : AValue) (acc : List ConstVal) (t : Target) :
    assignStep value acc t = acc ++ assignStep value [] t := by
  cases t with
  | name id =>
    cases value with
    | list elts =>
      simp only [assignStep]
      by_cases h : (id == "__all__") = true
      · rw [if_pos h, if_pos h, List.nil_append]
      · rw [if_neg h, if_neg h, List.append_nil]
    | other => simp [assignStep]
  | other => cases value <;> simp [assignStep]

theorem processAssign_eq_append (targets : List Target) (value : AValue)
    (acc : List ConstVal) :
    processAssign acc targets value = acc ++ processAssign [] targets value := by
  induction targets generalizing acc with
  | nil => simp [processAssign]
  | cons t ts ih =>
    show processAssign (assignStep value acc t) ts value
      = acc ++ processAssign (assignStep value [] t) ts value
    rw [ih (assignStep value acc t), ih (assignStep value [] t),
      assignStep_eq_append, List.append_assoc]

theorem visitStmt_all_exports (st : VisitState) (s : Stmt) :
    (visitStmt st s).all_exports = st.all_exports ++ stmtExportElts s := by
  cases s with
  | importFrom m names => simp [visitStmt, stmtExportElts]
  | assign targets value =>
    show processAssign st.all_exports targets value
      = st.all_exports ++ processAssign [] targets value
    exact processAssign_eq_append targets value st.all_exports
  | other => simp [visitStmt, stmtExportElts]

theorem foldl_visitStmt_all_exports (tree : Module) (st : VisitState) :
    (tree.foldl visitStmt st).all_exports
      = st.all_exports ++ (tree.map stmtExportElts).flatten := by
  induction tree generalizing st with
  | nil => simp
  | cons s ts ih =>
    rw [List.foldl_cons, ih, visitStmt_all_exports, List.map_cons, List.flatten_cons,
      List.append_assoc]

/-- Every constant collected from a list literal is itself an element of
the literal (wrapped as an `ast.Constant`). -/
theorem mem_constElts (elts : List Expr) (v : ConstVal) (h : v ∈ constElts elts) :
    Expr.const v ∈ elts := by
  unfold constElts at h
  rcases List.mem_filterMap.mp h with ⟨e, he, hev⟩
  cases e with
  | const w =>
    obtain rfl : w = v := by simpa using hev
    exact he
  | name id => simp at hev
  | call => simp at hev
  | other => simp at hev

/-- Invariant of the targets loop of `visit_Assign`: a collected constant
either was already accumulated, or the assigned value is a list literal
containing it, with `__all__` among the `ast.Name` targets. -/
theorem mem_processAssign (value : AValue) (targets : List Target) (acc : List ConstVal)
    (v : ConstVal) (h : v ∈ processAssign acc targets value) :
    v ∈ acc
      ∨ ∃ elts, value = AValue.list elts
          ∧ Target.name "__all__" ∈ targets ∧ Expr.const v ∈ elts := by
  induction targets generalizing acc with
  | nil => exact Or.inl h
  | cons t ts ih =>
    rcases ih (assignStep value acc t) h with h1 | h1
    · cases t with
      | name id =>
        cases value with
        | list elts =>
          simp only [assignStep] at h1
          by_cases hc : (id == "__all__") = true
          · rw [if_pos hc] at h1
            rcases List.mem_append.mp h1 with h2 | h2
            · exact Or.inl h2
            · obtain rfl : id = "__all__" := by simpa using hc
              exact Or.inr ⟨elts, rfl, List.mem_cons_self _ _, mem_constElts elts v h2⟩
          · rw [if_neg hc] at h1
            exact Or.inl h1
        | other => exact Or.inl h1
      | other => exact Or.inl h1
    · rcases h1 with ⟨elts, hval, hmem, hin⟩
      exact Or.inr ⟨elts, hval, List.mem_cons_of_mem _ hmem, hin⟩

/-- The summary fold computes the total as a sum of sizes and the module
count as a count of non-empty re-export dicts. -/
theorem foldl_summaryStep (l : List Analysis) (s : Summary) :
    l.foldl summaryStep s
      = { total_langchain_core_reexports := s.total_langchain_core_reexports
            + (l.map (fun a => a.exported_from_core.length)).sum,
          modules_with_core_reexports := s.modules_with_core_reexports
            + l.countP (fun a => !a.exported_from_core.isEmpty) } := by
  induction l generalizing s with
  | nil => simp
  | cons a l ih =>
    rw [List.foldl_cons, ih]
    unfold summaryStep
    by_cases h : a.exported_from_core = []
    · rw [if_neg (by simp [h])]
      simp [Summary.mk.injEq, h]
    · rw [if_pos h]
      simp only [Summary.mk.injEq, List.map_cons, List.sum_cons, List.countP_cons,
        List.isEmpty_eq_true, h, if_pos, Bool.not_eq_true']
      constructor <;> [skip; rw [if_pos (by simp [h])]] <;> omega

/-- The summary over a list of analyses: total is the sum of re-export
dict sizes, module count is the number of non-empty re-export dicts. -/
theorem computeSummary_eq (l : List Analysis) :
    computeSummary l
      = { total_langchain_core_reexports :=
            (l.map (fun a => a.exported_from_core.length)).sum,
          modules_with_core_reexports :=
            l.countP (fun a => !a.exported_from_core.isEmpty) } := by
  simpa using foldl_summaryStep l
    { total_langchain_core_reexports := 0, modules_with_core_reexports := 0 }

-- scratch sanity checks (kernel evaluation of the embedding)
example : (pyStartswith "langchain_corex.foo" "langchain_core") = true := by decide

example :
    (visitModule [Stmt.importFrom (some "langchain_core.chains")
      [{ name := "LLMChain", asname := some "Chain" }]]).langchain_core_imports
      = [("Chain", { module := "langchain_core.chains", original_name := "LLMChain" })] := by
  decide

example :
    (analyze_init_file "f" (Except.ok
      [Stmt.importFrom (some "langchain_core.chains")
        [{ name := "LLMChain", asname := some "Chain" }],
       Stmt.assign [Target.name "__all__"]
         (AValue.list [Expr.const (ConstVal.str "Chain"),
           Expr.const (ConstVal.str "Other")])])).exported_from_core
      = [("Chain", { module := "langchain_core.chains", original_name := "LLMChain" })] := by
  decide

example :
    find_init_files
      ⟨true, [["__init__.py"], ["_private", "__init__.py"], ["agents", "__init__.py"]]⟩
      = [["__init__.py"], ["agents", "__init__.py"]] := by decide

/-! ## Claim theorems -/

/-- Claim C1: every entry of the re-export map `exported_from_core` is
keyed by a local name that is a key of `langchain_core_imports`, its name
is a member of `all_exports`, and it carries exactly the
origin-module/original-name pair stored for that local name in the import
map. -/
theorem claim_C1 (f : String) (tree : Module) (k : String) (info : ImportInfo)
    (h : (k, info) ∈ (analyze_init_file f (Except.ok tree)).exported_from_core) :
    dictLookup (analyze_init_file f (Except.ok tree)).langchain_core_imports k = some info
      ∧ ConstVal.str k ∈ (analyze_init_file f (Except.ok tree)).all_exports := by
  have h' : (k, info) ∈ ((visitModule tree).all_exports).foldl
      (exportStep (visitModule tree).langchain_core_imports) [] := h
  rcases mem_exportedFromCore_foldl _ _ _ _ _ h' with h0 | hg
  · exact absurd h0 (List.not_mem_nil _)
  · exact hg

/-- Concrete instance of the C1 theorem on the spec's end-to-end module. -/
theorem claim_C1_witness :
    (("Chain", ({ module := "langchain_core.chains", original_name := "LLMChain" } : ImportInfo))
        ∈ (analyze_init_file "f" (Except.ok exampleAliasModule)).exported_from_core)
      ∧ (dictLookup (analyze_init_file "f"
              (Except.ok exampleAliasModule)).langchain_core_imports "Chain"
            = some { module := "langchain_core.chains", original_name := "LLMChain" }
          ∧ ConstVal.str "Chain"
              ∈ (analyze_init_file "f" (Except.ok exampleAliasModule)).all_exports) :=
  ⟨by decide, claim_C1 "f" exampleAliasModule "Chain" _ (by decide)⟩

/-- Claim C2: an aliased import from the upstream package stores the alias
as the map key and the pre-alias name as `original_name`; without an alias
the key equals the original name. -/
theorem claim_C2 (m origName al : String)
    (hm : (m != "") = true) (hp : pyStartswith m "langchain_core" = true)
    (hal : (al != "") = true) :
    ((visitModule [Stmt.importFrom (some m)
          [{ name := origName, asname := some al }]]).langchain_core_imports
        = [(al, { module := m, original_name := origName })])
      ∧ ((visitModule [Stmt.importFrom (some m)
          [{ name := origName, asname := Option.none }]]).langchain_core_imports
        = [(origName, { module := m, original_name := origName })]) := by
  constructor
  · show processImportFrom [] (some m) [{ name := origName, asname := some al }]
      = [(al, { module := m, original_name := origName })]
    simp only [processImportFrom]
    rw [if_pos (by rw [hm, hp]; rfl)]
    show importStep m [] { name := origName, asname := some al }
      = [(al, { module := m, original_name := origName })]
    simp only [importStep]
    rw [if_pos hal]
    simp [dictInsert]
  · show processImportFrom [] (some m) [{ name := origName, asname := Option.none }]
      = [(origName, { module := m, original_name := origName })]
    simp only [processImportFrom]
    rw [if_pos (by rw [hm, hp]; rfl)]
    show importStep m [] { name := origName, asname := Option.none }
      = [(origName, { module := m, original_name := origName })]
    simp [importStep, dictInsert]

/-- Concrete instance of the C2 theorem, mirroring the spec's example with
the upstream package of the script. -/
theorem claim_C2_witness :
    ((("langchain_core.chains" != "") = true
        ∧ pyStartswith "langchain_core.chains" "langchain_core" = true
        ∧ ("Chain" != "") = true))
      ∧ (((visitModule [Stmt.importFrom (some "langchain_core.chains")
            [{ name := "LLMChain", asname := some "Chain" }]]).langchain_core_imports
          = [("Chain", { module := "langchain_core.chains", original_name := "LLMChain" })])
        ∧ ((visitModule [Stmt.importFrom (some "langchain_core.chains")
            [{ name := "LLMChain", asname := Option.none }]]).langchain_core_imports
          = [("LLMChain",
              { module := "langchain_core.chains", original_name := "LLMChain" })])) :=
  ⟨⟨by decide, by decide, by decide⟩, claim_C2 _ _ _ (by decide) (by decide) (by decide)⟩

/-- Claim C3 as stated is false on the code: a statement importing `x`
from `langchain_corex.foo`, whose module shares the identifier only as a
plain string prefix (no dot boundary), does contribute a binding, because
the filter is `str.startswith`. -/
theorem claim_C3_counterexample :
    (analyze_init_file "f" (Except.ok
        [Stmt.importFrom (some "langchain_corex.foo")
          [{ name := "x", asname := Option.none }]])).langchain_core_imports
      = [("x", { module := "langchain_corex.foo", original_name := "x" })] := by decide

/-- Claim C3 (amended): a single-alias import-from statement contributes a
binding exactly when its module string is truthy (non-empty) and has
"langchain_core" as a plain string prefix; no dotted-boundary check is
made. -/
theorem claim_C3 (m : String) (a : ImportAlias) :
    ((visitModule [Stmt.importFrom (some m) [a]]).langchain_core_imports ≠ [])
      ↔ (m != "" && pyStartswith m "langchain_core") = true := by
  show (processImportFrom [] (some m) [a] ≠ []) ↔ _
  simp only [processImportFrom]
  by_cases hc : (m != "" && pyStartswith m "langchain_core") = true
  · rw [if_pos hc]
    simp [importStep, dictInsert, hc]
  · rw [if_neg hc]
    simp [hc]

/-- Claim C4: a parse failure yields an analysis carrying the error and
empty sets; the report still maps every located file to an analysis, and
the summary counters are the sum of sizes and the count of non-empty
re-export dicts over all analyses (errored modules contribute zero). -/
theorem claim_C4 (env : Env) (f e : String) :
    (analyze_init_file f (Except.error e)
        = { file := f, error := some e, langchain_core_imports := [], all_exports := [],
            exported_from_core := [] })
      ∧ ((buildReport env).analysis
        = (find_init_files env.dir).map (fun p =>
            analyze_init_file (env.pathName p) (env.parse p)))
      ∧ ((buildReport env).summary.total_langchain_core_reexports
        = ((buildReport env).analysis.map (fun a => a.exported_from_core.length)).sum)
      ∧ ((buildReport env).summary.modules_with_core_reexports
        = (buildReport env).analysis.countP (fun a => !a.exported_from_core.isEmpty)) := by
  have hsum : (buildReport env).summary = computeSummary ((buildReport env).analysis) := rfl
  refine ⟨rfl, rfl, ?_, ?_⟩
  · rw [hsum, computeSummary_eq]
  · rw [hsum, computeSummary_eq]

/-- Claim C5: when the same local name is bound by several statements
importing from upstream, the recorded pair is the one of the last binding
in source order: a final matching import overwrites whatever any earlier
statements stored under that local name. -/
theorem claim_C5 (stmts : Module) (m orig : String)
    (hm : (m != "") = true) (hp : pyStartswith m "langchain_core" = true) :
    dictLookup (visitModule (stmts ++ [Stmt.importFrom (some m)
          [{ name := orig, asname := Option.none }]])).langchain_core_imports orig
      = some { module := m, original_name := orig } := by
  rw [visitModule_append]
  show dictLookup (processImportFrom (visitModule stmts).langchain_core_imports
      (some m) [{ name := orig, asname := Option.none }]) orig
    = some { module := m, original_name := orig }
  simp only [processImportFrom]
  rw [if_pos (by rw [hm, hp]; rfl)]
  exact dictLookup_dictInsert_self _ _ _

/-- Concrete instance of the C5 theorem: `X` imported from
`langchain_core.a` and then re-imported from `langchain_core.b`; the
recorded origin is the later `langchain_core.b`. -/
theorem claim_C5_witness :
    dictLookup (visitModule ([Stmt.importFrom (some "langchain_core.a")
            [{ name := "X", asname := Option.none }]]
          ++ [Stmt.importFrom (some "langchain_core.b")
            [{ name := "X", asname := Option.none }]])).langchain_core_imports "X"
      = some { module := "langchain_core.b", original_name := "X" } :=
  claim_C5 _ _ _ (by decide) (by decide)

/-- Claim C6 as stated is false on the code: with `__all__ = ["a"]`
followed by `__all__ = [5, "b"]` the extracted list keeps the non-string
constant 5, so it is not the concatenation of the string elements of the
two assignments. -/
theorem claim_C6_counterexample :
    ((analyze_init_file "f" (Except.ok
          [Stmt.assign [Target.name "__all__"]
            (AValue.list [Expr.const (ConstVal.str "a")]),
           Stmt.assign [Target.name "__all__"]
            (AValue.list [Expr.const (ConstVal.int 5),
              Expr.const (ConstVal.str "b")])])).all_exports
        = [ConstVal.str "a", ConstVal.int 5, ConstVal.str "b"])
      ∧ [ConstVal.str "a", ConstVal.int 5, ConstVal.str "b"]
          ≠ [ConstVal.str "a", ConstVal.str "b"] := by decide

/-- Claim C6 (amended): the extracted export list is the concatenation, in
source order, of the literal-constant elements (strings or any other
constants) of every list assigned to `__all__`: with several assignments,
later ones append to earlier ones and never overwrite them. -/
theorem claim_C6 (tree : Module) :
    (visitModule tree).all_exports = (tree.map stmtExportElts).flatten := by
  simpa using foldl_visitStmt_all_exports tree
    { langchain_core_imports := [], all_exports := [] }

/-- Claim C7 as stated is false on the code: `__all__ = [5]` puts the
non-string constant 5 into the export list, because the filter admits any
`ast.Constant`, not only string constants. -/
theorem claim_C7_counterexample :
    ((analyze_init_file "f" (Except.ok
          [Stmt.assign [Target.name "__all__"]
            (AValue.list [Expr.const (ConstVal.int 5)])])).all_exports
        = [ConstVal.int 5])
      ∧ isStrConst (ConstVal.int 5) = false := by decide

/-- Claim C7 (amended): every element of the extracted export list is a
literal constant (string or otherwise) occurring in a list assigned to
`__all__`; non-literal elements (expressions, names, calls) never
appear. -/
theorem claim_C7 (f : String) (tree : Module) (v : ConstVal)
    (h : v ∈ (analyze_init_file f (Except.ok tree)).all_exports) :
    ∃ targets elts, Stmt.assign targets (AValue.list elts) ∈ tree
      ∧ Target.name "__all__" ∈ targets ∧ Expr.const v ∈ elts := by
  have h' : v ∈ (visitModule tree).all_exports := h
  rw [show (visitModule tree).all_exports = (tree.map stmtExportElts).flatten from by
    simpa using foldl_visitStmt_all_exports tree
      { langchain_core_imports := [], all_exports := [] }] at h'
  rcases List.mem_flatten.mp h' with ⟨l, hl, hvl⟩
  rcases List.mem_map.mp hl with ⟨s, hs, rfl⟩
  cases s with
  | assign targets value =>
    rcases mem_processAssign value targets [] v hvl with h3 | ⟨elts, rfl, hmem, hin⟩
    · exact absurd h3 (List.not_mem_nil _)
    · exact ⟨targets, elts, hs, hmem, hin⟩
  | importFrom mo names => exact absurd hvl (List.not_mem_nil _)
  | other => exact absurd hvl (List.not_mem_nil _)

/-- Concrete instance of the C7 theorem: the string constant "a" in a
one-assignment module is traced back to its literal occurrence. -/
theorem claim_C7_witness :
    ((ConstVal.str "a") ∈ (analyze_init_file "f" (Except.ok
          [Stmt.assign [Target.name "__all__"]
            (AValue.list [Expr.const (ConstVal.str "a")])])).all_exports)
      ∧ ∃ targets elts,
          Stmt.assign targets (AValue.list elts)
              ∈ [Stmt.assign [Target.name "__all__"]
                  (AValue.list [Expr.const (ConstVal.str "a")])]
            ∧ Target.name "__all__" ∈ targets
            ∧ Expr.const (ConstVal.str "a") ∈ elts :=
  ⟨by decide, claim_C7 "f" _ _ (by decide)⟩

/-- Claim C8 as stated is false on the code: a directory segment literally
named `__init__.py` begins with an underscore, yet the filter's
`part != "__init__.py"` conjunct keeps the file. -/
theorem claim_C8_counterexample :
    (["__init__.py", "__init__.py"]
        ∈ find_init_files ⟨true, [["__init__.py", "__init__.py"]]⟩)
      ∧ pyStartswith "__init__.py" "_" = true := by decide

/-- Claim C8 (amended): a candidate path is kept exactly when the
directory exists, the glob yielded the path, and no segment before the
filename both starts with an underscore and differs from the literal
`__init__.py`; an underscore-leading segment spelled exactly
`__init__.py` is exempted from the exclusion. -/
theorem claim_C8 (d : LangchainDir) (p : RelPath) :
    p ∈ find_init_files d
      ↔ d.present = true ∧ p ∈ d.initFiles
          ∧ ∀ part ∈ p.dropLast,
              ¬(pyStartswith part "_" = true ∧ part ≠ "__init__.py") := by
  unfold find_init_files
  cases hpr : d.present with
  | false => simp
  | true =>
    simp only [Bool.not_true, Bool.false_eq_true, if_false, List.mem_filter, true_and,
      Bool.not_eq_true', List.any_eq_false, Bool.and_eq_true, bne_iff_ne, not_and]

/-- Claim C9: with the `langchain` directory missing the locator returns
the empty list; when the install succeeds the report (with zero modules)
is still produced and the run exits 0; the only aborting error is the
install failure. -/
theorem claim_C9 (env : Env) (h : env.dir.present = false) :
    find_init_files env.dir = []
      ∧ main { env with installOk := true }
          = Except.ok (buildReport { env with installOk := true })
      ∧ (buildReport { env with installOk := true }).metadata.total_init_files = 0
      ∧ (buildReport { env with installOk := true }).analysis = []
      ∧ main { env with installOk := false } = Except.error "Failed to install packages" := by
  have h1 : find_init_files env.dir = [] := by simp [find_init_files, h]
  refine ⟨h1, rfl, ?_, ?_, rfl⟩
  · show (find_init_files env.dir).length = 0
    rw [h1]
    rfl
  · show (find_init_files env.dir).map
        (fun p => analyze_init_file (env.pathName p) (env.parse p)) = []
    rw [h1]
    rfl

/-- Concrete instance of the C9 theorem on a run whose package directory
is missing. -/
theorem claim_C9_witness :
    find_init_files exampleMissingDirEnv.dir = []
      ∧ main { exampleMissingDirEnv with installOk := true }
          = Except.ok (buildReport { exampleMissingDirEnv with installOk := true })
      ∧ (buildReport { exampleMissingDirEnv with
          installOk := true }).metadata.total_init_files = 0
      ∧ (buildReport { exampleMissingDirEnv with installOk := true }).analysis = []
      ∧ main { exampleMissingDirEnv with installOk := false }
          = Except.error "Failed to install packages" :=
  claim_C9 exampleMissingDirEnv rfl

/-- Claim C10: an import-from with no source module (a relative import),
or whose module string fails the upstream filter, leaves the visitor
state unchanged: no binding is recorded and no failure occurs. -/
theorem claim_C10 (tree : Module) (mo : Option String) (names : List ImportAlias)
    (h : ∀ m, mo = some m → (m != "" && pyStartswith m "langchain_core") = false) :
    visitModule (tree ++ [Stmt.importFrom mo names]) = visitModule tree := by
  rw [visitModule_append]
  cases mo with
  | none => rfl
  | some m =>
    have hm := h m rfl
    have hproc : processImportFrom (visitModule tree).langchain_core_imports (some m) names
        = (visitModule tree).langchain_core_imports := by
      simp only [processImportFrom]
      rw [if_neg (by simp [hm])]
    show ({ langchain_core_imports :=
              processImportFrom (visitModule tree).langchain_core_imports (some m) names,
            all_exports := (visitModule tree).all_exports } : VisitState)
        = visitModule tree
    rw [hproc]

/-- Concrete instance of the C10 theorem: a relative import and an import
from an unrelated module both leave the state unchanged. -/
theorem claim_C10_witness :
    (visitModule ([Stmt.other]
          ++ [Stmt.importFrom Option.none [{ name := "x", asname := Option.none }]])
        = visitModule [Stmt.other])
      ∧ (visitModule ([Stmt.other]
          ++ [Stmt.importFrom (some "os.path") [{ name := "x", asname := Option.none }]])
        = visitModule [Stmt.other]) := by
  constructor
  · exact claim_C10 [Stmt.other] Option.none _ (by intro m hm; cases hm)
  · exact claim_C10 [Stmt.other] (some "os.path") _
      (by intro m hm; injection hm with hm; subst hm; decide)

end CheckImportMappings
